import Mathlib

/-!
# Resilient chat platform — verification of the core spec claims

Shallow embedding of the resilient-generation core of the repository:

* `app/domain/value_objects/message.py` and `app/domain/entities/conversation.py`
  (the `Message` value object and the `Conversation` aggregate),
* `app/application/use_cases/stream_message.py` (`StreamMessageUseCase.execute`),
* `app/application/use_cases/process_message.py` (`ProcessMessageUseCase.execute`),
* `app/infrastructure/llm/openai_provider.py` (`OpenAIProvider`: cooldown ledger,
  fallback chain construction and the native/simulated streaming orchestration).

Text is modelled as `List Char` (Python strings are character sequences and all
the source's slicing/length operations are character based).  Timestamps on
messages and conversations are elided: no verified property mentions them.
External effects (repository saves, LLM calls, values yielded by the async
generator) are modelled as explicit event traces / oracle inputs, so every
definition is executable.
-/

/-- Character-sequence text, the model of a Python `str`. -/
abbrev Text := List Char

/-- `message.py`: a message role is `'user'` or `'assistant'`
(`Message.__post_init__` rejects anything else). -/
inductive Role where
  | user
  | assistant
deriving DecidableEq, Repr

/-- `message.py`: the `Message` value object (content + role; the timestamp
field is elided — no claim mentions it). -/
structure Message where
  content : Text
  role : Role
deriving DecidableEq, Repr

/-- `Message.__post_init__`: `if not self.content or not self.content.strip():
raise ValueError`.  A content string is accepted iff it has at least one
non-whitespace character (`s.strip()` is falsy exactly when every character is
whitespace, and the empty string is subsumed). -/
def validMessage (s : Text) : Bool :=
  s.any (fun c => !c.isWhitespace)

/-- `conversation.py`: the `Conversation` entity (user_id, optional id,
ordered message list; timestamps elided). -/
structure Conversation where
  userId : String
  id : Option String
  messages : List Message
deriving DecidableEq, Repr

/-- `Conversation.add_message`: appends to the ordered message list. -/
def addMessage (c : Conversation) (m : Message) : Conversation :=
  { c with messages := c.messages ++ [m] }

/-! ## Streaming use case (`stream_message.py`)

`StreamMessageUseCase.execute` is an async generator.  We model one run of it
as a pure function from its inputs and the behaviour of its two collaborators
to a result:

* `find : String → Option Conversation` — what `repository.find_by_id` returns;
* `save1`, `save2 : Except String String` — the outcomes of the first
  (user-turn) and second (assistant-turn / error-marker) calls to
  `repository.save`.  `.ok freshId` means the save succeeds and, per both
  repository implementations (`repository.py` / `postgres_repository.py`,
  which mutate `conversation.id` in place when it is `None`), assigns
  `freshId` as the id if the conversation has none yet;
* `stream : List Text × Option String` — the chunks the LLM port's
  `generate_stream` yields, in order, followed by an optional exception raised
  after the last delivered chunk (a mid-stream failure after `k` chunks is the
  pair of those `k` chunks and `some error`).

The result is the ordered list of externally visible events (repository saves
and values yielded to the caller) plus the exception, if any, the generator
raises. -/

/-- `stream_message.py` line 16: `MAX_RESPONSE_CHARS = 4000`. -/
def MAX_RESPONSE_CHARS : Nat := 4000

/-- `stream_message.py` line 237: the fixed truncation-notice suffix. -/
def truncationNotice : Text :=
  "\n\n[Resposta truncada devido ao limite de tamanho]".data

/-- `stream_message.py` line 129: the metadata tag prepended to the
conversation id in the first yielded value. -/
def conversationIdTag : Text := "__CONVERSATION_ID__:".data

/-- `stream_message.py` line 207: content of the error-marker assistant
message, `f"[Erro ao gerar resposta: {error_message}]"`. -/
def errMarker (e : String) : Text :=
  ("[Erro ao gerar resposta: " ++ e ++ "]").data

/-- An externally visible event of one `StreamMessageUseCase.execute` run:
a repository save (with the conversation passed to `save` — id already
assigned when the save succeeds — and whether the save succeeded) or a value
yielded to the caller. -/
inductive UCEv where
  | save (c : Conversation) (ok : Bool)
  | yieldEv (s : Text)
deriving DecidableEq, Repr

/-- Exception raised (if any) by an `execute` run: `RepositoryError`,
`LLMError`, or a `ValueError` escaping `Message.__post_init__`. -/
inductive UCErr where
  | repoErr (msg : String)
  | llmErr (msg : String)
  | valueErr (msg : String)
deriving DecidableEq, Repr

/-- Result of one `StreamMessageUseCase.execute` run: the ordered event trace
and the exception the generator raises (`none` = completes normally). -/
structure UCResult where
  events : List UCEv
  error : Option UCErr
deriving DecidableEq, Repr

/-- State of the chunk-consumption loop of `stream_message.py` lines 144-175:
accumulated buffer (`response_buffer`), truncation flag, chunk count, and the
chunks yielded to the caller in order. -/
structure LoopRes where
  buf : Text
  truncated : Bool
  count : Nat
  yields : List Text
deriving DecidableEq, Repr

/-- The `async for chunk in self.llm.generate_stream(...)` loop of
`stream_message.py` lines 148-175, as a function of the list of chunks the
stream would deliver.  Empty chunks are skipped (`if chunk:`); the length
check, the cut of the crossing chunk to `MAX_RESPONSE_CHARS -
(current_length - chunk_length)` characters, and the `break` (which abandons
the rest of the stream) are verbatim.  `truncated = true` exactly when the
loop exited via `break`. -/
def streamLoop (maxChars : Nat) : List Text → Nat → Text → Nat → LoopRes
  | [], _, buf, cnt => ⟨buf, false, cnt, []⟩
  | c :: rest, len, buf, cnt =>
    if c.length = 0 then
      streamLoop maxChars rest len buf cnt
    else
      let len' := len + c.length
      if maxChars < len' then
        let remaining := maxChars - (len' - c.length)
        if 0 < remaining then
          ⟨buf ++ c.take remaining, true, cnt + 1, [c.take remaining]⟩
        else
          ⟨buf, true, cnt, []⟩
      else
        let r := streamLoop maxChars rest len' (buf ++ c) (cnt + 1)
        { r with yields := c :: r.yields }

/-- `stream_message.py` lines 233-237: the final persisted text — the
accumulated buffer, plus the truncation notice when truncation occurred. -/
def fullResponse (r : LoopRes) : Text :=
  if r.truncated then r.buf ++ truncationNotice else r.buf

/-- `stream_message.py` lines 92-120: resolve the conversation.  A provided id
that does not resolve silently starts a brand-new conversation; a resolved
conversation owned by a different user raises `RepositoryError` before
anything else happens. -/
def resolveConversation (find : String → Option Conversation)
    (userId : String) (conversationId : Option String) :
    Except UCErr Conversation :=
  match conversationId with
  | some cid =>
    match find cid with
    | none => .ok ⟨userId, none, []⟩
    | some c =>
      if c.userId ≠ userId then
        .error (.repoErr
          ("Conversation " ++ cid ++ " does not belong to user " ++ userId))
      else .ok c
  | none => .ok ⟨userId, none, []⟩

/-- `stream_message.py` lines 137-259: everything after the user-turn save
succeeded.  `conv2` is the saved conversation (id assigned), `cidStr` its id.
The first yielded value is the tagged conversation id (line 129); then the
chunk loop runs; then either the generation-error path (lines 191-228: append
the error marker, attempt the save inside its own `try`, and re-raise an
`LLMError` wrapping the original error whether or not that save worked) or
the success path (lines 230-259: persist the full response when at least one
chunk arrived, silently complete otherwise). -/
def streamBody (save2 : Except String String)
    (stream : List Text × Option String)
    (conv2 : Conversation) (cidStr : String) : UCResult :=
  let r := streamLoop MAX_RESPONSE_CHARS stream.1 0 [] 0
  let headEvents := UCEv.save conv2 true ::
    UCEv.yieldEv (conversationIdTag ++ cidStr.data) ::
    r.yields.map UCEv.yieldEv
  match stream.2, r.truncated with
  | some e, false =>
    let convE := addMessage conv2 ⟨errMarker e, .assistant⟩
    let saveEvs :=
      if validMessage (errMarker e) then
        match save2 with
        | .ok _ => [UCEv.save convE true]
        | .error _ => [UCEv.save convE false]
      else []
    ⟨headEvents ++ saveEvs,
      some (.llmErr ("Failed to generate streaming LLM response: " ++ e))⟩
  | _, _ =>
    if 0 < r.count then
      let full := fullResponse r
      if validMessage full then
        let convA := addMessage conv2 ⟨full, .assistant⟩
        match save2 with
        | .ok _ => ⟨headEvents ++ [UCEv.save convA true], none⟩
        | .error e => ⟨headEvents ++ [UCEv.save convA false], some (.repoErr e)⟩
      else ⟨headEvents, some (.valueErr "Message content cannot be empty")⟩
    else ⟨headEvents, none⟩

/-- `StreamMessageUseCase.execute` (`stream_message.py` lines 55-259) as one
run over explicit collaborator behaviour.  Resolution, the user-message
construction (`Message` validation), the user-turn save, then `streamBody`. -/
def execute (find : String → Option Conversation)
    (save1 save2 : Except String String)
    (stream : List Text × Option String)
    (userId : String) (messageContent : Text)
    (conversationId : Option String) : UCResult :=
  match resolveConversation find userId conversationId with
  | .error e => ⟨[], some e⟩
  | .ok conv0 =>
    if validMessage messageContent then
      let conv1 := addMessage conv0 ⟨messageContent, .user⟩
      match save1 with
      | .error e => ⟨[UCEv.save conv1 false], some (.repoErr e)⟩
      | .ok freshId =>
        let cidStr := conv1.id.getD freshId
        streamBody save2 stream { conv1 with id := some cidStr } cidStr
    else ⟨[], some (.valueErr "Message content cannot be empty")⟩

/-! ## Non-streaming use case (`process_message.py`)

`ProcessMessageUseCase.execute`: resolve (or, when the provided id does not
resolve, silently create) the conversation, append the user message, run the
single-shot generation, append the assistant message and save once at the
end.  Modelled over the same collaborator oracles (`find`, a single `save`
outcome, and the single-shot generation outcome `gen`). -/

/-- Result of one `ProcessMessageUseCase.execute` run: the conversation passed
to `repository.save` (if a save was reached; with the id it ends up with on a
successful save), and the exception if one is raised.  On success the use case
returns a dict holding the saved conversation's id and the response; those are
recoverable from `saved`. -/
structure PMResult where
  saved : Option Conversation
  error : Option UCErr
deriving DecidableEq, Repr

/-- `ProcessMessageUseCase.execute` (`process_message.py` lines 56-172).
Note: when `conversation_id` is provided but `find_by_id` returns `None`,
lines 102-113 create a brand-new `Conversation` (there is no
ownership check and no not-found error on this path). -/
def processMessage (find : String → Option Conversation)
    (gen : Except String Text) (save : Except String String)
    (userId : String) (messageContent : Text)
    (conversationId : Option String) : PMResult :=
  let conv0 : Conversation :=
    match conversationId with
    | some cid =>
      match find cid with
      | none => ⟨userId, none, []⟩
      | some c => c
    | none => ⟨userId, none, []⟩
  if validMessage messageContent then
    let conv1 := addMessage conv0 ⟨messageContent, .user⟩
    match gen with
    | .error e =>
      ⟨none, some (.llmErr ("Failed to generate LLM response: " ++ e))⟩
    | .ok responseContent =>
      if validMessage responseContent then
        let conv2 := addMessage conv1 ⟨responseContent, .assistant⟩
        match save with
        | .ok freshId =>
          ⟨some { conv2 with id := some (conv2.id.getD freshId) }, none⟩
        | .error e => ⟨some conv2, some (.repoErr e)⟩
      else ⟨none, some (.valueErr "Message content cannot be empty")⟩
  else ⟨none, some (.valueErr "Message content cannot be empty")⟩

/-! ## Provider orchestration (`openai_provider.py`)

The cooldown ledger `failed_models : dict[str, float]` is modelled as an
association list `List (String × Int)` with first-match lookup; timestamps are
integers (`time.time()` instants), and one `now` instant is used for the whole
`generate_stream` call. -/

/-- `openai_provider.py` line 68: `self.failure_cooldown = 300`. -/
def FAILURE_COOLDOWN : Int := 300

/-- First-match lookup in the `failed_models` map. -/
def fmLookup : List (String × Int) → String → Option Int
  | [], _ => none
  | (k, t) :: rest, m => if k = m then some t else fmLookup rest m

/-- `self.failed_models[model] = time.time()` (`_mark_model_failed`). -/
def fmInsert (fm : List (String × Int)) (m : String) (t : Int) :
    List (String × Int) :=
  (m, t) :: fm.filter (fun p => p.1 ≠ m)

/-- `self.failed_models.pop(model, None)` — the success path clears any
stored failure for the model. -/
def fmErase (fm : List (String × Int)) (m : String) : List (String × Int) :=
  fm.filter (fun p => p.1 ≠ m)

/-- `OpenAIProvider._should_skip_model` (lines 106-127): skip iff fallback is
enabled, a failure is recorded for the model, and it is within the cooldown
window (`time.time() - last_failure < self.failure_cooldown`). -/
def shouldSkipModel (fallbackEnabled : Bool) (fm : List (String × Int))
    (now : Int) (m : String) : Bool :=
  if !fallbackEnabled then false
  else
    match fmLookup fm m with
    | some lastFailure =>
      if now - lastFailure < FAILURE_COOLDOWN then true else false
    | none => false

/-- Python's `needle in hay` substring test on character sequences. -/
def containsSubstring (hay needle : Text) : Bool :=
  match hay with
  | [] => needle.isEmpty
  | _ :: rest => needle.isPrefixOf hay || containsSubstring rest needle

/-- `OpenAIProvider._get_fallback_chain` (lines 72-104): the chains table,
exact match first, then `startswith("gpt-5")` with `"nano" in` / `"mini" in`
refinement, else just the primary. -/
def getFallbackChain (primaryModel : String) : List String :=
  if primaryModel = "gpt-5-nano" then
    ["gpt-5-nano", "gpt-5-mini", "gpt-4", "gpt-3.5-turbo"]
  else if primaryModel = "gpt-5-mini" then ["gpt-5-mini", "gpt-4", "gpt-3.5-turbo"]
  else if primaryModel = "gpt-5" then ["gpt-5", "gpt-4", "gpt-3.5-turbo"]
  else if primaryModel = "gpt-4" then ["gpt-4", "gpt-3.5-turbo"]
  else if primaryModel = "gpt-3.5-turbo" then ["gpt-3.5-turbo"]
  else if "gpt-5".data.isPrefixOf primaryModel.data then
    if containsSubstring primaryModel.data "nano".data then
      ["gpt-5-nano", "gpt-5-mini", "gpt-4", "gpt-3.5-turbo"]
    else if containsSubstring primaryModel.data "mini".data then
      ["gpt-5-mini", "gpt-4", "gpt-3.5-turbo"]
    else ["gpt-5", "gpt-4", "gpt-3.5-turbo"]
  else [primaryModel]

/-- `generate_stream` lines 513-527: `optimized_chain = [self.model]`, then the
configured fallback models not already present, then — when `"gpt-5" in
self.model` — guaranteed `"gpt-4"` and `"gpt-3.5-turbo"` entries. -/
def buildOptimizedChain (model : String) (fallbackChain : List String) :
    List String :=
  let c1 := fallbackChain.foldl
    (fun acc fb => if fb ≠ model ∧ fb ∉ acc then acc ++ [fb] else acc) [model]
  if containsSubstring model.data "gpt-5".data then
    let c2 := if "gpt-4" ∉ c1 then c1 ++ ["gpt-4"] else c1
    if "gpt-3.5-turbo" ∉ c2 then c2 ++ ["gpt-3.5-turbo"] else c2
  else c1

/-- Behaviour of the external OpenAI endpoints for one request, per model:
`nativeRaw m` is the sequence of deltas the native streaming transport
delivers for model `m` (followed by an optional transport error raised after
them), and `gen m` the outcome of the single-shot call
(`responses.create` / `chat.completions.create`) used by
`_generate_and_simulate_stream`. -/
structure BackendEnv where
  nativeRaw : String → List Text × Option String
  gen : String → Except String Text

/-- `OpenAIProvider._try_stream_with_model` (lines 305-368): forward only
non-empty deltas, count them, and — when the transport completes without
error but nothing was yielded — raise
`RuntimeError(f"{model} returned stream with no chunks")`.  Result: chunks
actually yielded to the consumer, plus the error raised after them (if any). -/
def tryStreamWithModel (m : String) (raw : List Text × Option String) :
    List Text × Option String :=
  let yielded := raw.1.filter (fun s => s.length ≠ 0)
  match raw.2 with
  | some e => (yielded, some e)
  | none =>
    if yielded.length = 0 then ([], some (m ++ " returned stream with no chunks"))
    else (yielded, none)

/-- The `for i in range(0, len(full_response), chunk_size)` slicing of
`_generate_and_simulate_stream` (line 477), via structural fuel =
`s.length` (with `chunk_size = 20 > 0` every step strictly shrinks `s`, so
the fuel is never exhausted first). -/
def chunkEveryAux (n : Nat) : Nat → Text → List Text
  | 0, _ => []
  | _ + 1, [] => []
  | fuel + 1, c :: cs => (c :: cs).take n :: chunkEveryAux n fuel ((c :: cs).drop n)

/-- Split a text into consecutive chunks of `n` characters (last one shorter). -/
def chunkEvery (n : Nat) (s : Text) : List Text :=
  chunkEveryAux n s.length s

/-- `OpenAIProvider._generate_and_simulate_stream` (lines 399-481): run the
single-shot generation; raise its error, or
`RuntimeError(f"{model} returned empty response")` on empty text; otherwise
emit the text as fixed-size chunks of 20 characters.  Result: chunks yielded,
plus the error raised (a failing attempt yields nothing, since both failure
points precede the first yield). -/
def generateAndSimulate (m : String) (gen : Except String Text) :
    List Text × Option String :=
  match gen with
  | .error e => ([], some e)
  | .ok full =>
    if full.length = 0 then ([], some (m ++ " returned empty response"))
    else (chunkEvery 20 full, none)

/-- One backend attempt recorded in the orchestration trace: a native
streaming attempt or a single-shot (simulated-streaming) attempt. -/
inductive Attempt where
  | native (m : String)
  | single (m : String)
deriving DecidableEq, Repr

/-- The model a trace entry attempted. -/
def attemptModel : Attempt → String
  | .native m => m
  | .single m => m

/-- Terminal failure of `generate_stream`: the aggregated
`RuntimeError(f"All models failed: {', '.join(optimized_chain)}. Last error:
{last_error}") from last_error` (listing `optimized_chain` and carrying the
last recorded error as cause), or — on the fallback-disabled path — the raw
error of the single native attempt. -/
inductive StreamFailure where
  | allFailed (listed : List String) (cause : Option String)
  | raw (e : String)
deriving DecidableEq, Repr

deriving instance DecidableEq for Except

/-- Result of one `generate_stream` call: ordered attempt trace, chunks
yielded to the caller, outcome (`.ok m` = returned normally after model `m`
succeeded), and the final `failed_models` ledger. -/
structure OrchRes where
  trace : List Attempt
  yielded : List Text
  outcome : Except StreamFailure String
  fm : List (String × Int)
deriving Repr

/-- The `for model in optimized_chain` loop of `generate_stream`
(lines 532-581): skip cooled-down models; try native streaming; on its failure
(or zero-chunk completion) try simulated streaming on the same model; on
success clear the failure cache and return; when both attempts fail, mark the
model failed, remember the error, and move to the next model; when the chain
is exhausted raise the aggregated error listing the full `optimized_chain`
with the last error as cause. -/
def orchLoop (env : BackendEnv) (now : Int) (fullChain : List String) :
    List String → List (String × Int) → Option String → OrchRes
  | [], fm, lastErr => ⟨[], [], .error (.allFailed fullChain lastErr), fm⟩
  | m :: rest, fm, lastErr =>
    if shouldSkipModel true fm now m then orchLoop env now fullChain rest fm lastErr
    else
      match tryStreamWithModel m (env.nativeRaw m) with
      | (cs, none) => ⟨[.native m], cs, .ok m, fmErase fm m⟩
      | (cs, some _) =>
        match generateAndSimulate m (env.gen m) with
        | (cs2, none) =>
          ⟨[.native m, .single m], cs ++ cs2, .ok m, fmErase fm m⟩
        | (_, some e2) =>
          let r := orchLoop env now fullChain rest (fmInsert fm m now) (some e2)
          ⟨.native m :: .single m :: r.trace, cs ++ r.yielded, r.outcome, r.fm⟩

/-- Static provider configuration relevant to `generate_stream`: the primary
model, the configured fallback chain (`fallback_chain or
_get_fallback_chain(model)`), and `settings.llm_fallback_enabled`. -/
structure ProviderConfig where
  model : String
  fallbackChain : List String
  fallbackEnabled : Bool

/-- `OpenAIProvider.generate_stream` (lines 483-581): with fallback disabled,
a single native attempt on the primary whose error propagates raw; with
fallback enabled, build the optimized chain and run the loop. -/
def generateStream (env : BackendEnv) (cfg : ProviderConfig)
    (fm : List (String × Int)) (now : Int) : OrchRes :=
  if !cfg.fallbackEnabled then
    match tryStreamWithModel cfg.model (env.nativeRaw cfg.model) with
    | (cs, none) => ⟨[.native cfg.model], cs, .ok cfg.model, fm⟩
    | (cs, some e) => ⟨[.native cfg.model], cs, .error (.raw e), fm⟩
  else
    let chain := buildOptimizedChain cfg.model cfg.fallbackChain
    orchLoop env now chain chain fm none

/-! ## Lemmas about the response accumulator -/

/-- Invariant of the chunk loop: starting from a state where the buffer length
equals the running count, the running count is within the bound, and a
positive running count certifies a positive chunk count, the resulting buffer
never exceeds the bound, and a truncated run ends with the buffer exactly at
the bound and at least one chunk counted. -/
theorem streamLoop_invariant (maxChars : Nat) (hmax : 0 < maxChars) :
    ∀ (chunks : List Text) (len : Nat) (buf : Text) (cnt : Nat),
      buf.length = len → len ≤ maxChars → (0 < len → 0 < cnt) →
      ((streamLoop maxChars chunks len buf cnt).buf.length ≤ maxChars
       ∧ ((streamLoop maxChars chunks len buf cnt).truncated = true →
            (streamLoop maxChars chunks len buf cnt).buf.length = maxChars
            ∧ 0 < (streamLoop maxChars chunks len buf cnt).count)) := by
  intro chunks
  induction chunks with
  | nil =>
    intro len buf cnt hbl hle _
    simp [streamLoop, hbl, hle]
  | cons c rest ih =>
    intro len buf cnt hbl hle hcnt
    by_cases hc : c.length = 0
    · simpa [streamLoop, hc] using ih len buf cnt hbl hle hcnt
    · by_cases hover : maxChars < len + c.length
      · by_cases hpos : len < maxChars
        · have hres : streamLoop maxChars (c :: rest) len buf cnt
              = ⟨buf ++ c.take (maxChars - len), true, cnt + 1,
                 [c.take (maxChars - len)]⟩ := by
            simp [streamLoop, hc, hover, hpos]
          rw [hres]
          have hlen : (buf ++ c.take (maxChars - len)).length = maxChars := by
            simp only [List.length_append, List.length_take]
            omega
          exact ⟨le_of_eq hlen, fun _ => ⟨hlen, Nat.succ_pos cnt⟩⟩
        · have hres : streamLoop maxChars (c :: rest) len buf cnt
              = ⟨buf, true, cnt, []⟩ := by
            simp [streamLoop, hc, hover, hpos]
          rw [hres]
          dsimp only
          refine ⟨by omega, fun _ => ⟨by omega, hcnt (by omega)⟩⟩
      · have hres : streamLoop maxChars (c :: rest) len buf cnt
            = { streamLoop maxChars rest (len + c.length) (buf ++ c) (cnt + 1) with
                yields := c :: (streamLoop maxChars rest (len + c.length)
                  (buf ++ c) (cnt + 1)).yields } := by
          simp [streamLoop, hc, hover]
        rw [hres]
        exact ih (len + c.length) (buf ++ c) (cnt + 1)
          (by simp [hbl]) (by omega) (fun _ => Nat.succ_pos cnt)

/-- The chunk count never decreases along the loop. -/
theorem streamLoop_count_mono (maxChars : Nat) :
    ∀ (chunks : List Text) (len : Nat) (buf : Text) (cnt : Nat),
      cnt ≤ (streamLoop maxChars chunks len buf cnt).count := by
  intro chunks
  induction chunks with
  | nil => intro len buf cnt; simp [streamLoop]
  | cons c rest ih =>
    intro len buf cnt
    by_cases hc : c.length = 0
    · simpa [streamLoop, hc] using ih len buf cnt
    · by_cases hover : maxChars < len + c.length
      · by_cases hpos : len < maxChars
        · simp [streamLoop, hc, hover, hpos]
        · simp [streamLoop, hc, hover, hpos]
      · have h := ih (len + c.length) (buf ++ c) (cnt + 1)
        have hres : streamLoop maxChars (c :: rest) len buf cnt
            = { streamLoop maxChars rest (len + c.length) (buf ++ c) (cnt + 1) with
                yields := c :: (streamLoop maxChars rest (len + c.length)
                  (buf ++ c) (cnt + 1)).yields } := by
          simp [streamLoop, hc, hover]
        rw [hres]
        simp only
        omega

/-- A run that ends with chunk count zero consumed nothing: no chunk was
yielded, no truncation happened, and the buffer is unchanged. -/
theorem streamLoop_zero_count (maxChars : Nat) (hmax : 0 < maxChars) :
    ∀ (chunks : List Text) (len : Nat) (buf : Text) (cnt : Nat),
      buf.length = len → len ≤ maxChars → (0 < len → 0 < cnt) →
      (streamLoop maxChars chunks len buf cnt).count = 0 →
      ((streamLoop maxChars chunks len buf cnt).yields = []
       ∧ (streamLoop maxChars chunks len buf cnt).truncated = false
       ∧ (streamLoop maxChars chunks len buf cnt).buf = buf) := by
  intro chunks
  induction chunks with
  | nil =>
    intro len buf cnt _ _ _ _
    simp [streamLoop]
  | cons c rest ih =>
    intro len buf cnt hbl hle hcnt hzero
    by_cases hc : c.length = 0
    · rw [streamLoop, if_pos hc] at hzero ⊢
      exact ih len buf cnt hbl hle hcnt hzero
    · by_cases hover : maxChars < len + c.length
      · by_cases hpos : len < maxChars
        · exfalso
          have hres : streamLoop maxChars (c :: rest) len buf cnt
              = ⟨buf ++ c.take (maxChars - len), true, cnt + 1,
                 [c.take (maxChars - len)]⟩ := by
            simp [streamLoop, hc, hover, hpos]
          rw [hres] at hzero
          simp at hzero
        · exfalso
          -- `remaining = 0` forces `len = maxChars > 0`, hence `cnt > 0`,
          -- but this branch keeps the count at `cnt`, which is zero here
          have hres : streamLoop maxChars (c :: rest) len buf cnt
              = ⟨buf, true, cnt, []⟩ := by
            simp [streamLoop, hc, hover, hpos]
          rw [hres] at hzero
          dsimp only at hzero
          have hcp : 0 < cnt := hcnt (by omega)
          omega
      · exfalso
        have hres : streamLoop maxChars (c :: rest) len buf cnt
            = { streamLoop maxChars rest (len + c.length) (buf ++ c) (cnt + 1) with
                yields := c :: (streamLoop maxChars rest (len + c.length)
                  (buf ++ c) (cnt + 1)).yields } := by
          simp [streamLoop, hc, hover]
        rw [hres] at hzero
        have hmono := streamLoop_count_mono maxChars rest (len + c.length)
          (buf ++ c) (cnt + 1)
        simp only at hzero
        omega

/-- C2.  For every chunk sequence consumed in one streaming session, the
accumulated text excluding the truncation notice never exceeds
`MAX_RESPONSE_CHARS = 4000`; a truncated run's core is exactly the maximum
length and the persisted text is that core followed by the fixed
truncation-notice suffix; and the chunk that first crosses the maximum is cut
to exactly the remaining allowance while the rest of the stream is never
consumed (the result does not depend on the chunks after the crossing one). -/
theorem accumulator_bounds_and_truncation :
    (∀ chunks : List Text,
      (streamLoop MAX_RESPONSE_CHARS chunks 0 [] 0).buf.length ≤ MAX_RESPONSE_CHARS
      ∧ ((streamLoop MAX_RESPONSE_CHARS chunks 0 [] 0).truncated = true →
          (streamLoop MAX_RESPONSE_CHARS chunks 0 [] 0).buf.length = MAX_RESPONSE_CHARS
          ∧ fullResponse (streamLoop MAX_RESPONSE_CHARS chunks 0 [] 0)
              = (streamLoop MAX_RESPONSE_CHARS chunks 0 [] 0).buf ++ truncationNotice))
    ∧ (∀ (c : Text) (rest : List Text) (len : Nat) (buf : Text) (cnt : Nat),
        c.length ≠ 0 → MAX_RESPONSE_CHARS < len + c.length →
        streamLoop MAX_RESPONSE_CHARS (c :: rest) len buf cnt
          = if 0 < MAX_RESPONSE_CHARS - len then
              ⟨buf ++ c.take (MAX_RESPONSE_CHARS - len), true, cnt + 1,
               [c.take (MAX_RESPONSE_CHARS - len)]⟩
            else ⟨buf, true, cnt, []⟩) := by
  constructor
  · intro chunks
    have h := streamLoop_invariant MAX_RESPONSE_CHARS (by norm_num [MAX_RESPONSE_CHARS])
      chunks 0 [] 0 rfl (by norm_num [MAX_RESPONSE_CHARS]) (by omega)
    refine ⟨h.1, fun ht => ⟨(h.2 ht).1, ?_⟩⟩
    simp [fullResponse, ht]
  · intro c rest len buf cnt hc hover
    by_cases hpos : len < MAX_RESPONSE_CHARS
    · have : 0 < MAX_RESPONSE_CHARS - len := by omega
      rw [if_pos this]
      simp [streamLoop, hc, hover, hpos]
    · have : ¬ 0 < MAX_RESPONSE_CHARS - len := by omega
      rw [if_neg this]
      simp [streamLoop, hc, hover, hpos]

/-- Witness for C2 at a concrete input: a single 4001-character chunk is cut
to exactly 4000 characters, and the chunks following the crossing one do not
influence the result at all. -/
theorem accumulator_bounds_and_truncation_witness :
    (streamLoop MAX_RESPONSE_CHARS [List.replicate 4001 'a'] 0 [] 0).buf.length
      = MAX_RESPONSE_CHARS
    ∧ streamLoop MAX_RESPONSE_CHARS (List.replicate 4001 'a' :: ["zz".data]) 0 [] 0
      = streamLoop MAX_RESPONSE_CHARS (List.replicate 4001 'a' :: ["qqq".data]) 0 [] 0 := by
  have hcut := accumulator_bounds_and_truncation.2
  have hrep : (List.replicate 4001 'a').length = 4001 := List.length_replicate 4001 'a'
  have e1 := hcut (List.replicate 4001 'a') [] 0 [] 0 (by omega)
    (by rw [hrep]; norm_num [MAX_RESPONSE_CHARS])
  have e2 := hcut (List.replicate 4001 'a') ["zz".data] 0 [] 0 (by omega)
    (by rw [hrep]; norm_num [MAX_RESPONSE_CHARS])
  have e3 := hcut (List.replicate 4001 'a') ["qqq".data] 0 [] 0 (by omega)
    (by rw [hrep]; norm_num [MAX_RESPONSE_CHARS])
  have ht : (streamLoop MAX_RESPONSE_CHARS [List.replicate 4001 'a'] 0 [] 0).truncated
      = true := by
    rw [e1]
    norm_num [MAX_RESPONSE_CHARS]
  refine ⟨((accumulator_bounds_and_truncation.1 [List.replicate 4001 'a']).2 ht).1, ?_⟩
  rw [e2, e3]

/-! ## Lemmas about the streaming use case trace -/

/-- Every branch of `streamBody` produces a trace that begins with the
successful user-turn save followed directly by the tagged-conversation-id
yield. -/
theorem streamBody_events_shape (save2 : Except String String)
    (stream : List Text × Option String)
    (conv2 : Conversation) (cidStr : String) :
    ∃ rest, (streamBody save2 stream conv2 cidStr).events
      = UCEv.save conv2 true
        :: UCEv.yieldEv (conversationIdTag ++ cidStr.data) :: rest := by
  unfold streamBody
  rcases h2 : stream.2 with _ | e
  · dsimp only
    split
    · split
      · rcases save2 with e | fid <;> exact ⟨_, rfl⟩
      · exact ⟨_, rfl⟩
    · exact ⟨_, rfl⟩
  · dsimp only
    rcases htr : (streamLoop MAX_RESPONSE_CHARS stream.1 0 [] 0).truncated with _ | _
    · dsimp only
      split
      · rcases save2 with e | fid <;> exact ⟨_, rfl⟩
      · exact ⟨_, rfl⟩
    · dsimp only
      split
      · split
        · rcases save2 with e | fid <;> exact ⟨_, rfl⟩
        · exact ⟨_, rfl⟩
      · exact ⟨_, rfl⟩

/-- C1.  On the streaming path, whenever anything at all is yielded to the
caller, the very first trace event is the successful save of the conversation
whose last message is the user's new message, the second event is the first
yielded value, and that value is the tagged identifier of the saved
conversation; every generated content chunk can only appear in the remaining
events, after both. -/
theorem stream_user_saved_before_first_yield :
    ∀ (find : String → Option Conversation) (save1 save2 : Except String String)
      (stream : List Text × Option String) (userId : String)
      (messageContent : Text) (conversationId : Option String),
    (∃ s, UCEv.yieldEv s
      ∈ (execute find save1 save2 stream userId messageContent conversationId).events) →
    ∃ conv cidStr rest,
      conv.id = some cidStr
      ∧ conv.messages.getLast? = some ⟨messageContent, .user⟩
      ∧ (execute find save1 save2 stream userId messageContent conversationId).events
          = UCEv.save conv true
            :: UCEv.yieldEv (conversationIdTag ++ cidStr.data) :: rest := by
  intro find save1 save2 stream userId msg cid? hy
  unfold execute at hy ⊢
  rcases hres : resolveConversation find userId cid? with e | conv0
  · rw [hres] at hy
    simp at hy
  · rw [hres] at hy
    dsimp only at hy ⊢
    by_cases hv : validMessage msg
    · rw [if_pos hv] at hy ⊢
      rcases save1 with e | freshId
      · simp at hy
      · dsimp only at hy ⊢
        obtain ⟨rest, hrest⟩ := streamBody_events_shape save2 stream
          { addMessage conv0 ⟨msg, .user⟩ with
            id := some ((addMessage conv0 ⟨msg, .user⟩).id.getD freshId) }
          ((addMessage conv0 ⟨msg, .user⟩).id.getD freshId)
        refine ⟨_, _, rest, rfl, ?_, hrest⟩
        show ((addMessage conv0 ⟨msg, .user⟩).messages).getLast? = some ⟨msg, .user⟩
        unfold addMessage
        simp
    · rw [if_neg hv] at hy
      simp at hy

/-- Witness for C1: a concrete run with one chunk; the trace opens with the
user-turn save followed by the tagged conversation id. -/
theorem stream_user_saved_before_first_yield_witness :
    ∃ conv cidStr rest,
      conv.id = some cidStr
      ∧ conv.messages.getLast? = some ⟨"hello".data, .user⟩
      ∧ (execute (fun _ => none) (.ok "cid1") (.ok "cid2") (["hi".data], none)
          "u1" "hello".data none).events
          = UCEv.save conv true
            :: UCEv.yieldEv (conversationIdTag ++ cidStr.data) :: rest :=
  stream_user_saved_before_first_yield (fun _ => none) (.ok "cid1") (.ok "cid2")
    (["hi".data], none) "u1" "hello".data none ⟨"hi".data, by decide⟩

/-- C10.  On the streaming path, a supplied conversation id resolving to a
conversation owned by a different user makes the use case raise
`RepositoryError` with an empty event trace: nothing is yielded and nothing is
saved, so the stored conversation is untouched. -/
theorem stream_foreign_conversation_rejected :
    ∀ (find : String → Option Conversation) (save1 save2 : Except String String)
      (stream : List Text × Option String) (userId : String)
      (messageContent : Text) (cid : String) (c : Conversation),
    find cid = some c → c.userId ≠ userId →
    execute find save1 save2 stream userId messageContent (some cid)
      = ⟨[], some (.repoErr
          ("Conversation " ++ cid ++ " does not belong to user " ++ userId))⟩ := by
  intro find save1 save2 stream userId msg cid c hfind hne
  unfold execute resolveConversation
  dsimp only
  rw [hfind]
  dsimp only
  rw [if_pos hne]

/-- Witness for C10 at a concrete input. -/
theorem stream_foreign_conversation_rejected_witness :
    execute (fun _ => some ⟨"other", some "k", []⟩) (.ok "a") (.ok "b")
      (["x".data], none) "u1" "hello".data (some "k")
      = ⟨[], some (.repoErr "Conversation k does not belong to user u1")⟩ :=
  stream_foreign_conversation_rejected (fun _ => some ⟨"other", some "k", []⟩)
    (.ok "a") (.ok "b") (["x".data], none) "u1" "hello".data "k" ⟨"other", some "k", []⟩
    rfl (by decide)

/-- The last element of a list with an appended singleton. -/
theorem lastOfAppendSingle {α : Type} (l : List α) (x : α) :
    (l ++ [x]).getLast? = some x := by
  rw [List.getLast?_append_cons]
  rfl

/-- The error-marker content always passes `Message` validation: it starts
with a non-whitespace character. -/
theorem errMarker_valid (e : String) : validMessage (errMarker e) = true := by
  unfold validMessage errMarker
  rw [String.data_append, String.data_append]
  have h : ("[Erro ao gerar resposta: ".data).any (fun c => !c.isWhitespace) = true := by
    decide
  simp [List.any_append, h]

/-- C9.  When generation fails mid-stream (the stream raises after its chunks,
and the loop did not already stop by truncation), the run ends with a save
event whose conversation's last message is the user-visible error marker built
from the generation error; that save succeeds exactly when the repository
accepts it, and — whether or not it does — the exception raised to the caller
is the `LLMError` wrapping the original generation error, never the
persistence error. -/
theorem stream_error_persists_marker_and_reraises :
    ∀ (find : String → Option Conversation) (save2 : Except String String)
      (chunks : List Text) (userId : String) (msg : Text)
      (cid? : Option String) (conv0 : Conversation) (freshId e : String),
    resolveConversation find userId cid? = .ok conv0 →
    validMessage msg = true →
    (streamLoop MAX_RESPONSE_CHARS chunks 0 [] 0).truncated = false →
    ((execute find (.ok freshId) save2 (chunks, some e) userId msg cid?).error
        = some (.llmErr ("Failed to generate streaming LLM response: " ++ e))
     ∧ ∃ convE b,
        (execute find (.ok freshId) save2 (chunks, some e) userId msg cid?).events.getLast?
          = some (.save convE b)
        ∧ convE.messages.getLast? = some ⟨errMarker e, .assistant⟩
        ∧ (b = true ↔ ∃ fid2, save2 = .ok fid2)) := by
  intro find save2 chunks userId msg cid? conv0 freshId e hres hv htr
  unfold execute
  rw [hres]
  try dsimp only
  rw [if_pos hv]
  try dsimp only
  unfold streamBody
  try dsimp only
  rw [htr]
  try dsimp only
  rw [if_pos (errMarker_valid e)]
  rcases save2 with se | fid2
  · try dsimp only
    refine ⟨rfl,
      addMessage { addMessage conv0 ⟨msg, Role.user⟩ with
        id := some ((addMessage conv0 ⟨msg, Role.user⟩).id.getD freshId) }
        ⟨errMarker e, Role.assistant⟩, false, ?_, ?_, by simp⟩
    · rw [lastOfAppendSingle]
    · show ((addMessage conv0 (Message.mk msg Role.user)).messages
        ++ [Message.mk (errMarker e) Role.assistant]).getLast? = _
      rw [lastOfAppendSingle]
  · try dsimp only
    refine ⟨rfl,
      addMessage { addMessage conv0 ⟨msg, Role.user⟩ with
        id := some ((addMessage conv0 ⟨msg, Role.user⟩).id.getD freshId) }
        ⟨errMarker e, Role.assistant⟩, true, ?_, ?_, by simp⟩
    · rw [lastOfAppendSingle]
    · show ((addMessage conv0 (Message.mk msg Role.user)).messages
        ++ [Message.mk (errMarker e) Role.assistant]).getLast? = _
      rw [lastOfAppendSingle]

/-- Witness for C9: a mid-stream failure whose error-marker save itself fails;
the raised exception still wraps the generation error. -/
theorem stream_error_persists_marker_and_reraises_witness :
    ((execute (fun _ => none) (.ok "c1") (.error "db down") (["hi".data], some "boom")
        "u1" "hello".data none).error
      = some (.llmErr ("Failed to generate streaming LLM response: " ++ "boom"))
    ∧ ∃ convE b,
        (execute (fun _ => none) (.ok "c1") (.error "db down") (["hi".data], some "boom")
          "u1" "hello".data none).events.getLast? = some (.save convE b)
        ∧ convE.messages.getLast? = some ⟨errMarker "boom", .assistant⟩
        ∧ (b = true ↔ ∃ fid2, (Except.error "db down" : Except String String) = .ok fid2)) :=
  stream_error_persists_marker_and_reraises (fun _ => none) (.error "db down")
    (["hi".data]) "u1" "hello".data none ⟨"u1", none, []⟩ "c1" "boom"
    rfl (by decide) (by decide)

/-- C8 counterexample: a stream that completes with zero chunks and no error.
The use case completes normally — no exception is raised and every persisted
conversation state holds only user-role messages (no assistant turn, no error
marker), i.e. the outcome is a silent success, not an error outcome. -/
theorem stream_empty_completion_counterexample :
    (execute (fun _ => none) (.ok "cid1") (.ok "cid2") ([], none)
        "u1" "hi".data none).error = none
    ∧ ((execute (fun _ => none) (.ok "cid1") (.ok "cid2") ([], none)
        "u1" "hi".data none).events.all (fun ev =>
          match ev with
          | UCEv.save c _ => c.messages.all (fun m => m.role == Role.user)
          | UCEv.yieldEv _ => true)) = true := by
  decide

/-- C8 (amended).  When the stream completes without raising and with zero
processed chunks, the use case completes silently: no exception is raised and
the only save is the user-turn save — the conversation is left holding the
user's message with no assistant turn. -/
theorem stream_empty_completion_silent :
    ∀ (find : String → Option Conversation) (save2 : Except String String)
      (chunks : List Text) (userId : String) (msg : Text)
      (cid? : Option String) (conv0 : Conversation) (freshId : String),
    resolveConversation find userId cid? = .ok conv0 →
    validMessage msg = true →
    (streamLoop MAX_RESPONSE_CHARS chunks 0 [] 0).count = 0 →
    ((execute find (.ok freshId) save2 (chunks, none) userId msg cid?).error = none
     ∧ (execute find (.ok freshId) save2 (chunks, none) userId msg cid?).events
        = [UCEv.save { addMessage conv0 ⟨msg, .user⟩ with
              id := some ((addMessage conv0 ⟨msg, .user⟩).id.getD freshId) } true,
           UCEv.yieldEv (conversationIdTag
             ++ ((addMessage conv0 ⟨msg, .user⟩).id.getD freshId).data)]) := by
  intro find save2 chunks userId msg cid? conv0 freshId hres hv hcount
  have hz := streamLoop_zero_count MAX_RESPONSE_CHARS
    (by norm_num [MAX_RESPONSE_CHARS]) chunks 0 [] 0 rfl
    (by norm_num [MAX_RESPONSE_CHARS]) (by omega) hcount
  unfold execute
  rw [hres]
  try dsimp only
  rw [if_pos hv]
  try dsimp only
  unfold streamBody
  try dsimp only
  rw [if_neg (by omega : ¬ 0 < (streamLoop MAX_RESPONSE_CHARS chunks 0 [] 0).count)]
  rw [hz.1]
  exact ⟨rfl, rfl⟩

/-- Witness for C8 (amended) at a concrete empty stream. -/
theorem stream_empty_completion_silent_witness :
    ((execute (fun _ => none) (.ok "cid9") (.ok "x") ([], none)
        "u7" "hola".data none).error = none
     ∧ (execute (fun _ => none) (.ok "cid9") (.ok "x") ([], none)
        "u7" "hola".data none).events
        = [UCEv.save { addMessage ⟨"u7", none, []⟩ ⟨"hola".data, .user⟩ with
              id := some ((addMessage ⟨"u7", none, []⟩ ⟨"hola".data, .user⟩).id.getD "cid9") } true,
           UCEv.yieldEv (conversationIdTag
             ++ ((addMessage ⟨"u7", none, []⟩ ⟨"hola".data, .user⟩).id.getD "cid9").data)]) :=
  stream_empty_completion_silent (fun _ => none) (.ok "x") [] "u7" "hola".data none
    ⟨"u7", none, []⟩ "cid9" rfl (by decide) (by decide)

/-! ## Lemmas about the provider orchestration -/

/-- Clearing a model from the failure ledger removes its entry. -/
theorem fmLookup_erase (fm : List (String × Int)) (m : String) :
    fmLookup (fmErase fm m) m = none := by
  induction fm with
  | nil => rfl
  | cons p rest ih =>
    obtain ⟨k, t⟩ := p
    by_cases hk : k = m
    · simpa [fmErase, List.filter_cons, hk] using ih
    · simpa [fmErase, List.filter_cons, hk, fmLookup] using ih

/-- Whenever the orchestration loop returns successfully after model `s`, the
final failure ledger holds no entry for `s` (the success path pops it). -/
theorem orchLoop_ok_clears (env : BackendEnv) (now : Int) (fullChain : List String) :
    ∀ (chain : List String) (fm : List (String × Int)) (lastErr : Option String)
      (s : String),
    (orchLoop env now fullChain chain fm lastErr).outcome = .ok s →
    fmLookup (orchLoop env now fullChain chain fm lastErr).fm s = none := by
  intro chain
  induction chain with
  | nil =>
    intro fm lastErr s h
    simp [orchLoop] at h
  | cons m rest ih =>
    intro fm lastErr s h
    rw [orchLoop] at h ⊢
    by_cases hs : shouldSkipModel true fm now m = true
    · rw [if_pos hs] at h ⊢
      exact ih _ _ s h
    · rw [if_neg hs] at h ⊢
      rcases h1 : tryStreamWithModel m (env.nativeRaw m) with ⟨cs, err1⟩
      rw [h1] at h
      rcases err1 with _ | e1
      · dsimp only at h ⊢
        cases h
        exact fmLookup_erase fm m
      · rcases h2 : generateAndSimulate m (env.gen m) with ⟨cs2, err2⟩
        rw [h2] at h
        rcases err2 with _ | e2
        · dsimp only at h ⊢
          cases h
          exact fmLookup_erase fm m
        · dsimp only at h ⊢
          exact ih _ _ s h

/-- If every model of the (remaining) chain is cooldown-skipped, the loop
attempts nothing: empty trace, no chunks, unchanged ledger, and the
aggregated failure carrying the incoming last error. -/
theorem orchLoop_all_skip (env : BackendEnv) (now : Int) (fullChain : List String) :
    ∀ (chain : List String) (fm : List (String × Int)) (lastErr : Option String),
    (∀ m ∈ chain, shouldSkipModel true fm now m = true) →
    orchLoop env now fullChain chain fm lastErr
      = ⟨[], [], .error (.allFailed fullChain lastErr), fm⟩ := by
  intro chain
  induction chain with
  | nil =>
    intro fm lastErr _
    rfl
  | cons m rest ih =>
    intro fm lastErr hall
    rw [orchLoop]
    rw [if_pos (hall m (List.mem_cons_self m rest))]
    exact ih fm lastErr (fun x hx => hall x (List.mem_cons_of_mem m hx))

/-- Every attempt in the loop's trace names a model of the remaining chain. -/
theorem orchLoop_trace_models (env : BackendEnv) (now : Int) (fullChain : List String) :
    ∀ (chain : List String) (fm : List (String × Int)) (lastErr : Option String)
      (a : Attempt),
    a ∈ (orchLoop env now fullChain chain fm lastErr).trace →
    attemptModel a ∈ chain := by
  intro chain
  induction chain with
  | nil =>
    intro fm lastErr a ha
    simp [orchLoop] at ha
  | cons m rest ih =>
    intro fm lastErr a ha
    rw [orchLoop] at ha
    by_cases hs : shouldSkipModel true fm now m = true
    · rw [if_pos hs] at ha
      exact List.mem_cons_of_mem m (ih _ _ a ha)
    · rw [if_neg hs] at ha
      rcases h1 : tryStreamWithModel m (env.nativeRaw m) with ⟨cs, err1⟩
      rw [h1] at ha
      rcases err1 with _ | e1
      · dsimp only at ha
        cases ha with
        | head => exact List.mem_cons_self m rest
        | tail _ ha => cases ha
      · rcases h2 : generateAndSimulate m (env.gen m) with ⟨cs2, err2⟩
        rw [h2] at ha
        rcases err2 with _ | e2
        · dsimp only at ha
          cases ha with
          | head => exact List.mem_cons_self m rest
          | tail _ ha =>
            cases ha with
            | head => exact List.mem_cons_self m rest
            | tail _ ha => cases ha
        · dsimp only at ha
          cases ha with
          | head => exact List.mem_cons_self m rest
          | tail _ ha =>
            cases ha with
            | head => exact List.mem_cons_self m rest
            | tail _ ha => exact List.mem_cons_of_mem m (ih _ _ _ ha)

/-- When the loop ends in the aggregated failure, the listed identifiers are
exactly the full optimized chain, and the attached cause is the incoming last
error when nothing was attempted, or the simulated-attempt error of the last
attempted model otherwise. -/
theorem orchLoop_err_spec (env : BackendEnv) (now : Int) (fullChain : List String) :
    ∀ (chain : List String) (fm : List (String × Int)) (lastErr : Option String)
      (L : List String) (c : Option String),
    (orchLoop env now fullChain chain fm lastErr).outcome = .error (.allFailed L c) →
    (L = fullChain
     ∧ ((orchLoop env now fullChain chain fm lastErr).trace = [] → c = lastErr)
     ∧ (∀ a, ((orchLoop env now fullChain chain fm lastErr).trace).getLast? = some a →
         c = (generateAndSimulate (attemptModel a) (env.gen (attemptModel a))).2)) := by
  intro chain
  induction chain with
  | nil =>
    intro fm lastErr L c h
    rw [orchLoop] at h
    injection h with h
    injection h with h1 h2
    subst h1
    subst h2
    exact ⟨rfl, fun _ => rfl, fun a ha => by simp [orchLoop] at ha⟩
  | cons m rest ih =>
    intro fm lastErr L c h
    rw [orchLoop] at h ⊢
    by_cases hs : shouldSkipModel true fm now m = true
    · rw [if_pos hs] at h ⊢
      exact ih _ _ L c h
    · rw [if_neg hs] at h ⊢
      rcases h1 : tryStreamWithModel m (env.nativeRaw m) with ⟨cs, err1⟩
      rw [h1] at h
      rcases err1 with _ | e1
      · dsimp only at h
        cases h
      · rcases h2 : generateAndSimulate m (env.gen m) with ⟨cs2, err2⟩
        rw [h2] at h
        rcases err2 with _ | e2
        · dsimp only at h
          cases h
        · dsimp only at h ⊢
          obtain ⟨hL, hEmpty, hLast⟩ := ih _ _ L c h
          refine ⟨hL, fun h' => absurd h' (by simp), ?_⟩
          intro a ha
          rw [List.getLast?_cons_cons] at ha
          rcases hr : (orchLoop env now fullChain rest (fmInsert fm m now)
              (some e2)).trace with _ | ⟨b, t⟩
          · rw [hr] at ha
            have haa : a = Attempt.single m := by
              have := ha
              simp at this
              exact this.symm
            subst haa
            have hc : c = some e2 := hEmpty hr
            show c = (generateAndSimulate m (env.gen m)).2
            rw [hc, h2]
          · rw [hr] at ha
            rw [List.getLast?_cons_cons] at ha
            rw [← hr] at ha
            exact hLast a ha

/-- The folding step of chain building keeps the accumulator duplicate-free. -/
theorem chainFold_nodup (model : String) :
    ∀ (l : List String) (acc : List String), acc.Nodup →
    (l.foldl (fun acc fb => if fb ≠ model ∧ fb ∉ acc then acc ++ [fb] else acc)
      acc).Nodup := by
  intro l
  induction l with
  | nil => intro acc h; exact h
  | cons f t ih =>
    intro acc h
    rw [List.foldl_cons]
    by_cases hc : f ≠ model ∧ f ∉ acc
    · rw [if_pos hc]
      refine ih _ ?_
      simp [List.nodup_append, h, hc.2]
    · rw [if_neg hc]
      exact ih _ h

/-- Appending an element only when absent preserves freedom from
duplicates. -/
theorem nodup_append_absent (l : List String) (x : String) (h : l.Nodup) :
    (if x ∉ l then l ++ [x] else l).Nodup := by
  by_cases hx : x ∉ l
  · rw [if_pos hx]
    simp [List.nodup_append, h, hx]
  · rw [if_neg hx]
    exact h

/-- The optimized fallback chain never repeats an identifier. -/
theorem buildOptimizedChain_nodup (model : String) (fallbackChain : List String) :
    (buildOptimizedChain model fallbackChain).Nodup := by
  unfold buildOptimizedChain
  have h1 : (fallbackChain.foldl
      (fun acc fb => if fb ≠ model ∧ fb ∉ acc then acc ++ [fb] else acc)
      [model]).Nodup :=
    chainFold_nodup model fallbackChain [model] (List.nodup_singleton model)
  by_cases hg : containsSubstring model.data "gpt-5".data
  · rw [if_pos hg]
    dsimp only
    exact nodup_append_absent _ _ (nodup_append_absent _ _ h1)
  · rw [if_neg hg]
    exact h1

/-- C5.  With fallback enabled, a backend is skipped (unavailable) iff a
failure is recorded for it within the 300-second cooldown of the current
time; an identifier never marked failed, or whose failure is at least the
cooldown in the past, is available; clearing on success removes the entry and
restores availability; and whenever the orchestration returns successfully
after backend `s`, the final ledger holds no failure entry for `s`. -/
theorem cooldown_availability :
    ∀ (fm : List (String × Int)) (now : Int) (m : String),
    ((shouldSkipModel true fm now m = true
        ↔ ∃ t, fmLookup fm m = some t ∧ now - t < FAILURE_COOLDOWN)
     ∧ fmLookup (fmErase fm m) m = none
     ∧ shouldSkipModel true (fmErase fm m) now m = false
     ∧ (∀ (env : BackendEnv) (fullChain chain : List String)
          (lastErr : Option String) (s : String),
         (orchLoop env now fullChain chain fm lastErr).outcome = .ok s →
         fmLookup (orchLoop env now fullChain chain fm lastErr).fm s = none)) := by
  intro fm now m
  refine ⟨?_, fmLookup_erase fm m, ?_, ?_⟩
  · unfold shouldSkipModel
    rcases hl : fmLookup fm m with _ | t
    · simp
    · by_cases hd : now - t < FAILURE_COOLDOWN
      · simp [hd]
      · simp [hd]
  · unfold shouldSkipModel
    rw [fmLookup_erase fm m]
    rfl
  · intro env fullChain chain lastErr s h
    exact orchLoop_ok_clears env now fullChain chain fm lastErr s h

/-- Witness for C5: a backend that failed 100 seconds ago is unavailable. -/
theorem cooldown_availability_witness :
    shouldSkipModel true [("gpt-4", (1000 : Int))] 1100 "gpt-4" = true :=
  (cooldown_availability [("gpt-4", (1000 : Int))] 1100 "gpt-4").1.mpr
    ⟨1000, rfl, by norm_num [FAILURE_COOLDOWN]⟩

/-- C6.  For a non-skipped backend whose native streaming attempt fails or
yields zero chunks (`tryStreamWithModel` reports an error in both cases), the
orchestration's next attempt is the single-shot simulated streaming on the
same backend: the trace starts `[native m, single m]`; when the single-shot
succeeds the loop stops there with `m` as the successful backend; only when
both attempts fail does the loop move on to the rest of the chain. -/
theorem same_backend_single_shot_fallback :
    ∀ (env : BackendEnv) (now : Int) (fullChain : List String)
      (fm : List (String × Int)) (lastErr : Option String)
      (m : String) (rest : List String) (e : String),
    shouldSkipModel true fm now m = false →
    (tryStreamWithModel m (env.nativeRaw m)).2 = some e →
    ((orchLoop env now fullChain (m :: rest) fm lastErr).trace.take 2
        = [.native m, .single m]
     ∧ ((generateAndSimulate m (env.gen m)).2 = none →
          (orchLoop env now fullChain (m :: rest) fm lastErr).trace
              = [.native m, .single m]
          ∧ (orchLoop env now fullChain (m :: rest) fm lastErr).outcome = .ok m)
     ∧ (∀ e2, (generateAndSimulate m (env.gen m)).2 = some e2 →
          (orchLoop env now fullChain (m :: rest) fm lastErr).trace
            = .native m :: .single m ::
              (orchLoop env now fullChain rest (fmInsert fm m now) (some e2)).trace)) := by
  intro env now fullChain fm lastErr m rest e hs hn
  rw [orchLoop]
  rw [if_neg (by simp [hs])]
  rcases h1 : tryStreamWithModel m (env.nativeRaw m) with ⟨cs, err1⟩
  rw [h1] at hn
  dsimp only at hn
  subst hn
  rcases h2 : generateAndSimulate m (env.gen m) with ⟨cs2, err2⟩
  rcases err2 with _ | e2
  · dsimp only
    exact ⟨rfl, fun _ => ⟨rfl, rfl⟩, fun e2 h' => Option.noConfusion h'⟩
  · dsimp only
    refine ⟨rfl, fun h' => Option.noConfusion h', ?_⟩
    intro e2' h'
    injection h' with h'
    subst h'
    rfl

/-- Witness for C6: native fails, simulated fails too, and the trace shows
both attempts on the same backend before the (empty) remainder. -/
theorem same_backend_single_shot_fallback_witness :
    (orchLoop ⟨fun _ => ([], some "native boom"), fun _ => .error "gen boom"⟩
        1100 ["gpt-4"] ["gpt-4"] [] none).trace.take 2
      = [.native "gpt-4", .single "gpt-4"] :=
  (same_backend_single_shot_fallback
    ⟨fun _ => ([], some "native boom"), fun _ => .error "gen boom"⟩
    1100 ["gpt-4"] [] none "gpt-4" [] "native boom" rfl rfl).1

/-- C3 counterexample: the primary (`gpt-3.5-turbo`) failed 100 seconds ago so
cooldown filtering removes every candidate.  The environment would succeed
instantly if asked — yet the request makes zero attempts (empty trace) and
fails with the aggregated error (cause `none`): the primary is NOT retained
and attempted. -/
theorem empty_filtered_chain_counterexample :
    (generateStream ⟨fun _ => (["hello".data], none), fun _ => .ok "hello".data⟩
        ⟨"gpt-3.5-turbo", getFallbackChain "gpt-3.5-turbo", true⟩
        [("gpt-3.5-turbo", 1000)] 1100).trace = []
    ∧ (generateStream ⟨fun _ => (["hello".data], none), fun _ => .ok "hello".data⟩
        ⟨"gpt-3.5-turbo", getFallbackChain "gpt-3.5-turbo", true⟩
        [("gpt-3.5-turbo", 1000)] 1100).outcome
      = .error (.allFailed ["gpt-3.5-turbo"] none) := by
  decide

/-- C3 (amended).  When cooldown filtering removes every candidate of the
optimized chain, no backend is attempted at all: the loop skips every model
and the request fails immediately with the aggregated all-models-failed error
(listing the whole chain, with no recorded cause). -/
theorem empty_filtered_chain_no_attempt :
    ∀ (env : BackendEnv) (cfg : ProviderConfig) (fm : List (String × Int)) (now : Int),
    cfg.fallbackEnabled = true →
    (∀ m ∈ buildOptimizedChain cfg.model cfg.fallbackChain,
        shouldSkipModel true fm now m = true) →
    ((generateStream env cfg fm now).trace = []
     ∧ (generateStream env cfg fm now).outcome
        = .error (.allFailed (buildOptimizedChain cfg.model cfg.fallbackChain) none)) := by
  intro env cfg fm now hen hall
  unfold generateStream
  rw [hen]
  rw [if_neg (by decide : ¬((!(true : Bool)) = true))]
  dsimp only
  rw [orchLoop_all_skip env now _ _ fm none hall]
  exact ⟨rfl, rfl⟩

/-- Witness for C3 (amended) at the counterexample's configuration. -/
theorem empty_filtered_chain_no_attempt_witness :
    ((generateStream ⟨fun _ => ([], none), fun _ => .error "x"⟩
        ⟨"gpt-4", getFallbackChain "gpt-4", true⟩
        [("gpt-4", 1000), ("gpt-3.5-turbo", 1050)] 1100).trace = []
     ∧ (generateStream ⟨fun _ => ([], none), fun _ => .error "x"⟩
        ⟨"gpt-4", getFallbackChain "gpt-4", true⟩
        [("gpt-4", 1000), ("gpt-3.5-turbo", 1050)] 1100).outcome
        = .error (.allFailed (buildOptimizedChain "gpt-4" (getFallbackChain "gpt-4")) none)) :=
  empty_filtered_chain_no_attempt ⟨fun _ => ([], none), fun _ => .error "x"⟩
    ⟨"gpt-4", getFallbackChain "gpt-4", true⟩
    [("gpt-4", 1000), ("gpt-3.5-turbo", 1050)] 1100 rfl (by decide)

/-- C7 counterexample: `gpt-4` is cooldown-skipped and never attempted, while
`gpt-3.5-turbo` is attempted and fails both ways.  The terminal error still
lists `gpt-4`: the listed identifiers are not only the attempted ones. -/
theorem exhausted_listing_counterexample :
    (generateStream ⟨fun _ => ([], some "native boom"), fun _ => .error "gen boom"⟩
        ⟨"gpt-4", getFallbackChain "gpt-4", true⟩ [("gpt-4", 1000)] 1100).outcome
      = .error (.allFailed ["gpt-4", "gpt-3.5-turbo"] (some "gen boom"))
    ∧ ((generateStream ⟨fun _ => ([], some "native boom"), fun _ => .error "gen boom"⟩
        ⟨"gpt-4", getFallbackChain "gpt-4", true⟩ [("gpt-4", 1000)] 1100).trace.all
        (fun a => !(attemptModel a == "gpt-4"))) = true := by
  decide

/-- C7 (amended).  When the fallback-enabled orchestration raises the
aggregated terminal error, the listed identifiers are exactly the
deduplicated optimized chain — every attempted identifier appears exactly
once, but cooldown-skipped (unattempted) candidates are listed too; the
attached cause is the last recorded per-backend error (the simulated-attempt
error of the last attempted backend, or nothing when no backend was
attempted). -/
theorem exhausted_error_lists_chain :
    ∀ (env : BackendEnv) (cfg : ProviderConfig) (fm : List (String × Int))
      (now : Int) (L : List String) (c : Option String),
    cfg.fallbackEnabled = true →
    (generateStream env cfg fm now).outcome = .error (.allFailed L c) →
    (L = buildOptimizedChain cfg.model cfg.fallbackChain
     ∧ L.Nodup
     ∧ (∀ a ∈ (generateStream env cfg fm now).trace,
          attemptModel a ∈ L ∧ L.count (attemptModel a) = 1)
     ∧ ((generateStream env cfg fm now).trace = [] → c = none)
     ∧ (∀ a, ((generateStream env cfg fm now).trace).getLast? = some a →
          c = (generateAndSimulate (attemptModel a) (env.gen (attemptModel a))).2)) := by
  intro env cfg fm now L c hen h
  rw [generateStream, hen] at h ⊢
  rw [if_neg (by decide : ¬((!(true : Bool)) = true))] at h ⊢
  dsimp only at h ⊢
  obtain ⟨hL, hEmpty, hLast⟩ := orchLoop_err_spec env now _ _ fm none L c h
  subst hL
  refine ⟨rfl, buildOptimizedChain_nodup cfg.model cfg.fallbackChain, ?_, hEmpty, hLast⟩
  intro a ha
  have hmem := orchLoop_trace_models env now _ _ fm none a ha
  exact ⟨hmem, List.count_eq_one_of_mem
    (buildOptimizedChain_nodup cfg.model cfg.fallbackChain) hmem⟩

/-- Witness for C7 (amended): all candidates attempted and failing; the error
lists the deduplicated chain, each attempted identifier exactly once, with
the last simulated-attempt error as cause. -/
theorem exhausted_error_lists_chain_witness :
    (buildOptimizedChain "gpt-4" (getFallbackChain "gpt-4")
        = buildOptimizedChain "gpt-4" (getFallbackChain "gpt-4")
     ∧ (buildOptimizedChain "gpt-4" (getFallbackChain "gpt-4")).Nodup
     ∧ (∀ a ∈ (generateStream ⟨fun _ => ([], some "nb"), fun _ => .error "gb"⟩
          ⟨"gpt-4", getFallbackChain "gpt-4", true⟩ [] 1100).trace,
          attemptModel a ∈ buildOptimizedChain "gpt-4" (getFallbackChain "gpt-4")
          ∧ (buildOptimizedChain "gpt-4" (getFallbackChain "gpt-4")).count (attemptModel a) = 1)
     ∧ ((generateStream ⟨fun _ => ([], some "nb"), fun _ => .error "gb"⟩
          ⟨"gpt-4", getFallbackChain "gpt-4", true⟩ [] 1100).trace = [] → some "gb" = none)
     ∧ (∀ a, ((generateStream ⟨fun _ => ([], some "nb"), fun _ => .error "gb"⟩
          ⟨"gpt-4", getFallbackChain "gpt-4", true⟩ [] 1100).trace).getLast? = some a →
          some "gb" = (generateAndSimulate (attemptModel a)
            ((⟨fun _ => ([], some "nb"), fun _ => .error "gb"⟩ : BackendEnv).gen
              (attemptModel a))).2)) :=
  exhausted_error_lists_chain ⟨fun _ => ([], some "nb"), fun _ => .error "gb"⟩
    ⟨"gpt-4", getFallbackChain "gpt-4", true⟩ [] 1100
    ["gpt-4", "gpt-3.5-turbo"] (some "gb") rfl (by decide)

/-- C4.  On the non-streaming path, a conversation id that does not resolve
does NOT fail the request: `ProcessMessageUseCase.execute` silently creates a
brand-new conversation, generates a reply, and persists the full turn under a
fresh id.  Evaluated at the failing input of the repository's own test
(`test_execute_raises_error_when_conversation_not_found`): no error is
raised and a new conversation holding both messages is saved. -/
theorem process_unresolvable_id_creates_new_conversation :
    (processMessage (fun _ => none) (.ok "response".data) (.ok "fresh-id")
        "user1" "message".data (some "non-existent-id")).error = none
    ∧ (processMessage (fun _ => none) (.ok "response".data) (.ok "fresh-id")
        "user1" "message".data (some "non-existent-id")).saved
      = some ⟨"user1", some "fresh-id",
          [⟨"message".data, .user⟩, ⟨"response".data, .assistant⟩]⟩ := by
  decide
